import Mathlib

/-!
Verification of the cmyk-converter repository: a shallow embedding of the
conversion endpoint (src/app/api/convert/route.ts) and of the upload UI state
logic (the client page component), with theorems settling the specified
behavioural claims.
-/

namespace Route

/-- One uploaded file part, as obtained from the multipart form field
named image: its client-declared name, MIME type and raw bytes. -/
structure FilePart where
  name : String
  type : String
  bytes : List Nat
deriving DecidableEq, Repr

/-- Outputs of the delegated sharp pipeline on one input file: the metadata
read (width, height), the JPEG preview re-encode bytes and the CMYK TIFF
encode bytes. An exception anywhere in the pipeline is the error case. -/
structure ProcOutput where
  width : Nat
  height : Nat
  previewBytes : List Nat
  tiffBytes : List Nat
deriving DecidableEq, Repr

/-- The image-processing pipeline (sharp metadata read, preview re-encode,
CMYK TIFF encode), abstracted as a fallible function on the file. -/
def Pipeline : Type := FilePart → Except Unit ProcOutput

/-- The JSON object returned on success by the route. -/
structure SuccessJson where
  success : Bool
  previewUrl : String
  downloadData : String
  filename : String
  width : Nat
  height : Nat
  format : String
  size : Nat
deriving DecidableEq, Repr

/-- A response body: either an error object with a message, or the success
JSON object. -/
inductive Body where
  | err (msg : String)
  | ok (j : SuccessJson)
deriving DecidableEq, Repr

/-- An HTTP response: status code and JSON body. -/
structure Response where
  status : Nat
  body : Body
deriving DecidableEq, Repr

/-- The allow-list of declared content types, from the route source. -/
def allowedTypes : List String := ["image/jpeg", "image/jpg", "image/png"]

/-- The standard base64 alphabet. -/
def base64Alphabet : List Char :=
  ("ABCDEFGHIJKLMNOPQRSTUVWXYZabcdefghijklmnopqrstuvwxyz0123456789+/").toList

/-- Character of the base64 alphabet at a 6-bit index. -/
def b64char (n : Nat) : Char := base64Alphabet.getD n 'A'

/-- Base64 encoding of a byte list, embedding Buffer.toString applied with
the base64 encoding argument. -/
def base64Encode : List Nat → String
  | [] => ""
  | [a] =>
    String.mk [b64char (a / 4), b64char (a % 4 * 16), '=', '=']
  | [a, b] =>
    String.mk [b64char (a / 4), b64char (a % 4 * 16 + b / 16),
               b64char (b % 16 * 4), '=']
  | a :: b :: c :: rest =>
    String.mk [b64char (a / 4), b64char (a % 4 * 16 + b / 16),
               b64char (b % 16 * 4 + c / 64), b64char (c % 64)]
      ++ base64Encode rest

/-- Embedding of the JavaScript expression file.name.split applied to a dot
and indexed at 0: the characters of the name strictly before its first dot
(the whole name when it has no dot). -/
def firstDotSegment (s : String) : String :=
  String.mk (s.toList.takeWhile (fun c => c ≠ '.'))

/-- The generic failure message the catch block returns. -/
def failMsg : String := "Failed to convert image. Please try again."

/-- The request handler POST of src/app/api/convert/route.ts.

The first argument embeds the joint outcome of request.formData and of
formData.get on the image field: the error case is formData throwing (a body
that does not parse as multipart form data), the none case a parsed form with
no image field, and the some case the uploaded file. Since the parse happens
inside the try block, its exception is caught by the same catch as the
pipeline. Validation (missing file, then content type) runs after the parse
and before any pipeline call; a pipeline exception is caught and mapped to
the generic 500. -/
def POST (parse : Except Unit (Option FilePart)) (pipeline : Pipeline) :
    Response :=
  match parse with
  | .error _ => ⟨500, .err failMsg⟩
  | .ok none => ⟨400, .err "No file provided"⟩
  | .ok (some file) =>
    if file.type ∈ allowedTypes then
      match pipeline file with
      | .error _ => ⟨500, .err failMsg⟩
      | .ok out =>
        ⟨200, .ok
          { success := true
            previewUrl := "data:image/jpeg;base64," ++ base64Encode out.previewBytes
            downloadData := "data:image/tiff;base64," ++ base64Encode out.tiffBytes
            filename := firstDotSegment file.name ++ "_cmyk.tiff"
            width := out.width
            height := out.height
            format := "TIFF (CMYK)"
            size := out.tiffBytes.length }⟩
    else
      ⟨400, .err "Invalid file type. Only JPG, JPEG, and PNG are supported."⟩

/-- A concrete pipeline that always fails, for witnesses. -/
def failingPipeline : Pipeline := fun _ => .error ()

/-- A concrete pipeline output, for witnesses. -/
def sampleOut : ProcOutput :=
  { width := 2, height := 3, previewBytes := [1, 2, 3], tiffBytes := [9, 8, 7, 6] }

/-- A concrete pipeline that always succeeds with sampleOut, for witnesses. -/
def okPipeline : Pipeline := fun _ => .ok sampleOut

/-- A concrete JPEG file part, for witnesses. -/
def sampleJpeg : FilePart := { name := "photo.jpg", type := "image/jpeg", bytes := [0] }

/-- A concrete file part with a disallowed type, for witnesses. -/
def sampleGif : FilePart := { name := "anim.gif", type := "image/gif", bytes := [0] }

end Route

namespace Page

/-- Per-item status of the upload UI, from the ImageFile interface of the
client page component. -/
inductive Status where
  | pending
  | processing
  | completed
  | error
deriving DecidableEq, Repr

/-- The metadata object stored on a completed item. -/
structure Meta where
  width : Nat
  height : Nat
  size : Nat
  format : String
deriving DecidableEq, Repr

/-- One entry of the images state list, embedding the ImageFile interface:
a client-side identifier, the original file name, the local preview object
URL created on drop, the status, and the optional result and error fields. -/
structure ImageFile where
  id : String
  fileName : String
  preview : String
  status : Status
  previewUrl : Option String := none
  downloadData : Option String := none
  filename : Option String := none
  metadata : Option Meta := none
  error : Option String := none
deriving DecidableEq, Repr

/-- The parsed JSON of a successful conversion response, as consumed by the
client. -/
structure ConversionResult where
  previewUrl : String
  downloadData : String
  filename : String
  metadata : Meta
deriving DecidableEq, Repr

/-- Joint outcome of one fetch of the conversion endpoint as observed by
convertImage: success is a 2xx response with parsed JSON, failure is a
network error or a non-2xx response, carrying the thrown message. -/
inductive FetchOutcome where
  | success (result : ConversionResult)
  | failure (msg : String)
deriving DecidableEq, Repr

/-- The first setImages update of convertImage: the entry whose id matches
moves to processing, every other entry is returned unchanged. -/
def setProcessing (id : String) (l : List ImageFile) : List ImageFile :=
  l.map fun img =>
    if img.id = id then { img with status := Status.processing } else img

/-- The second setImages update of convertImage: on success the matching
entry moves to completed and stores the result fields, on failure it moves
to error and stores the message; every other entry is returned unchanged. -/
def applyOutcome (id : String) (o : FetchOutcome) (l : List ImageFile) :
    List ImageFile :=
  l.map fun img =>
    if img.id = id then
      match o with
      | .success r =>
        { img with
            status := Status.completed
            previewUrl := some r.previewUrl
            downloadData := some r.downloadData
            filename := some r.filename
            metadata := some r.metadata }
      | .failure m => { img with status := Status.error, error := some m }
    else img

/-- convertImage of the page component: it first marks the item processing,
then sends the request and applies the outcome. The try block catches every
network or non-2xx failure, so the function is total: every outcome is
mapped to a state update and no exception propagates. -/
def convertImage (id : String) (o : FetchOutcome) (l : List ImageFile) :
    List ImageFile :=
  applyOutcome id o (setProcessing id l)

/-- The combined effect of one convertImage call on the matching entry. -/
def convertImageStep (o : FetchOutcome) (img : ImageFile) : ImageFile :=
  match o with
  | .success r =>
    { img with
        status := Status.completed
        previewUrl := some r.previewUrl
        downloadData := some r.downloadData
        filename := some r.filename
        metadata := some r.metadata }
  | .failure m => { img with status := Status.error, error := some m }

/-- Observable events of the batch loop: the global processing flag being
set, a conversion request being issued, and its response arriving. -/
inductive Event where
  | procFlag (b : Bool)
  | reqStart (id : String)
  | reqEnd (id : String)
deriving DecidableEq, Repr

/-- The snapshot of pending items taken by convertAllImages. -/
def pendingOf (l : List ImageFile) : List ImageFile :=
  l.filter fun img => img.status == Status.pending

/-- One iteration of the serial loop of convertAllImages: append the request
issue and response events for the item, then apply convertImage for it. -/
def batchStep (oc : String → FetchOutcome) (acc : List Event × List ImageFile)
    (img : ImageFile) : List Event × List ImageFile :=
  (acc.1 ++ [Event.reqStart img.id, Event.reqEnd img.id],
   convertImage img.id (oc img.id) acc.2)

/-- convertAllImages of the page component: sets the processing flag, takes
the snapshot of pending items, serially converts each one awaiting its
response before the next, and clears the flag. The outcome of each request
is given by the oracle oc; the returned trace records the flag writes and
the request issue and completion events in order. -/
def convertAllImages (oc : String → FetchOutcome) (l : List ImageFile) :
    List Event × List ImageFile :=
  let r := (pendingOf l).foldl (batchStep oc) ([Event.procFlag true], l)
  (r.1 ++ [Event.procFlag false], r.2)

/-- clearImages of the page component: revokes the preview object URL of
every item and empties the list. The first component collects the revoked
URLs, the second is the new images state. -/
def clearImages (l : List ImageFile) : List String × List ImageFile :=
  (l.map fun img => img.preview, [])

/-- The disabled condition of the per-item convert button. -/
def convertButtonDisabled (s : Status) : Bool :=
  !(s == Status.pending) && !(s == Status.error)

/-- The disabled condition of the Clear All button: it is disabled exactly
while the global processing flag is set. -/
def clearAllButtonDisabled (isProcessing : Bool) : Bool := isProcessing

/-- One click of the per-item convert button: a disabled button fires no
handler, an enabled one issues the request events and runs convertImage. -/
def clickConvert (img : ImageFile) (o : FetchOutcome) (l : List ImageFile) :
    List Event × List ImageFile :=
  if convertButtonDisabled img.status then ([], l)
  else ([Event.reqStart img.id, Event.reqEnd img.id],
        convertImage img.id o l)

/-- The identifiers of issued requests, in trace order. -/
def reqStartIds : List Event → List String
  | [] => []
  | Event.reqStart id :: t => id :: reqStartIds t
  | _ :: t => reqStartIds t

/-- Checks that requests in a trace are strictly serial: starting from o
outstanding requests, a request may start only when none is outstanding and
end only when one is, and none is left outstanding at the end. -/
def serialFrom : Nat → List Event → Bool
  | o, [] => o == 0
  | o, Event.reqStart _ :: t => o == 0 && serialFrom 1 t
  | o, Event.reqEnd _ :: t => o == 1 && serialFrom 0 t
  | o, Event.procFlag _ :: t => serialFrom o t

/-- A state transformer f touches no entry whose id differs from id: any
list position holding an item of another id is returned unchanged. -/
def framedAt (f : List ImageFile → List ImageFile) (id : String) : Prop :=
  ∀ (l : List ImageFile) (i : Nat) (img0 : ImageFile),
    l.get? i = some img0 → img0.id ≠ id → (f l).get? i = some img0

/-- A concrete pending item, for witnesses. -/
def itemPending : ImageFile :=
  { id := "p1", fileName := "photo.jpg", preview := "blob:p", status := Status.pending }

/-- A concrete completed item, for witnesses. -/
def itemDone : ImageFile :=
  { id := "c1", fileName := "done.png", preview := "blob:c",
    status := Status.completed, previewUrl := some "data:image/jpeg;base64,AQID",
    downloadData := some "data:image/tiff;base64,CQgHBg==",
    filename := some "done_cmyk.tiff",
    metadata := some { width := 2, height := 3, size := 4, format := "TIFF (CMYK)" } }

end Page

section Helpers

lemma listGet_map {α β : Type} (f : α → β) :
    ∀ (l : List α) (n : Nat), (l.map f).get? n = (l.get? n).map f
  | [], n => by cases n <;> rfl
  | _ :: _, 0 => rfl
  | _ :: t, n + 1 => listGet_map f t n

lemma listGet_mem {α : Type} :
    ∀ (l : List α) (n : Nat) (a : α), l.get? n = some a → a ∈ l
  | x :: t, 0, a, h => by
    injection h with h
    exact h ▸ List.mem_cons_self x t
  | x :: t, n + 1, a, h => List.mem_cons_of_mem x (listGet_mem t n a h)

end Helpers

namespace Route

/-- C1: on a request whose body parses as multipart form data, the route
answers 400 exactly when the image field is absent or carries a disallowed
content type; the missing-file body is the fixed No file provided object,
the bad-type message begins with Invalid file type, and in either case the
response does not depend on the image-processing pipeline, which is
therefore never consulted. -/
theorem post_returns_400_iff_invalid_input (fd : Option FilePart) (p q : Pipeline) :
    ((POST (Except.ok fd) p).status = 400
      ↔ fd = none ∨ ∃ f, fd = some f ∧ f.type ∉ allowedTypes)
    ∧ (fd = none →
        POST (Except.ok fd) p = ⟨400, Body.err "No file provided"⟩
        ∧ POST (Except.ok fd) p = POST (Except.ok fd) q)
    ∧ (∀ f, fd = some f → f.type ∉ allowedTypes →
        (∃ rest, POST (Except.ok fd) p = ⟨400, Body.err ("Invalid file type" ++ rest)⟩)
        ∧ POST (Except.ok fd) p = POST (Except.ok fd) q) := by
  refine ⟨?_, ?_, ?_⟩
  · cases fd with
    | none => simp [POST]
    | some f =>
      by_cases hty : f.type ∈ allowedTypes
      · cases hp : p f with
        | error e => simp [POST, hty, hp]
        | ok out => simp [POST, hty, hp]
      · simp [POST, hty]
  · intro h
    subst h
    exact ⟨rfl, rfl⟩
  · intro f hfd hty
    subst hfd
    refine ⟨⟨". Only JPG, JPEG, and PNG are supported.", ?_⟩, ?_⟩
    · simp [POST, hty]
    · simp [POST, hty]

/-- C1 witness: a gif upload is rejected with status 400 independently of
the pipeline. -/
theorem post_returns_400_iff_invalid_input_witness :
    (POST (Except.ok (some sampleGif)) okPipeline).status = 400
    ∧ POST (Except.ok (some sampleGif)) okPipeline
        = POST (Except.ok (some sampleGif)) failingPipeline := by
  refine ⟨?_, ?_⟩
  · exact ((post_returns_400_iff_invalid_input (some sampleGif) okPipeline
      failingPipeline).1).mpr (Or.inr ⟨sampleGif, rfl, by decide⟩)
  · exact ((post_returns_400_iff_invalid_input (some sampleGif) okPipeline
      failingPipeline).2.2 sampleGif rfl (by decide)).2

/-- C2: on an accepted file whose pipeline succeeds, the route answers 200
with a JSON body whose success flag is true, whose previewUrl is a data URI
with the JPEG base64 prefix, whose downloadData is a data URI with the TIFF
base64 prefix, whose format label is exactly TIFF (CMYK), and whose size is
the byte length of the produced TIFF output rather than the length of its
base64 encoding. -/
theorem post_success_response_shape (f : FilePart) (p : Pipeline) (out : ProcOutput)
    (hty : f.type ∈ allowedTypes) (hp : p f = Except.ok out) :
    ∃ j : SuccessJson,
      POST (Except.ok (some f)) p = ⟨200, Body.ok j⟩
      ∧ j.success = true
      ∧ (∃ rest, j.previewUrl = "data:image/jpeg;base64," ++ rest)
      ∧ (∃ rest, j.downloadData = "data:image/tiff;base64," ++ rest)
      ∧ j.filename = firstDotSegment f.name ++ "_cmyk.tiff"
      ∧ j.format = "TIFF (CMYK)"
      ∧ j.size = out.tiffBytes.length := by
  refine ⟨{ success := true
            previewUrl := "data:image/jpeg;base64," ++ base64Encode out.previewBytes
            downloadData := "data:image/tiff;base64," ++ base64Encode out.tiffBytes
            filename := firstDotSegment f.name ++ "_cmyk.tiff"
            width := out.width
            height := out.height
            format := "TIFF (CMYK)"
            size := out.tiffBytes.length }, ?_, rfl, ⟨_, rfl⟩, ⟨_, rfl⟩, rfl, rfl, rfl⟩
  simp [POST, hty, hp]

/-- C2 witness: the concrete sample JPEG with the concrete pipeline. -/
theorem post_success_response_shape_witness :
    ∃ j : SuccessJson,
      POST (Except.ok (some sampleJpeg)) okPipeline = ⟨200, Body.ok j⟩
      ∧ j.success = true
      ∧ (∃ rest, j.previewUrl = "data:image/jpeg;base64," ++ rest)
      ∧ (∃ rest, j.downloadData = "data:image/tiff;base64," ++ rest)
      ∧ j.filename = firstDotSegment sampleJpeg.name ++ "_cmyk.tiff"
      ∧ j.format = "TIFF (CMYK)"
      ∧ j.size = sampleOut.tiffBytes.length :=
  post_success_response_shape sampleJpeg okPipeline sampleOut (by decide) rfl

/-- C3: the filename of a successful response is the input file name
truncated at its first dot, followed by the fixed suffix, with the concrete
behaviours of the truncation on the example names. -/
theorem post_filename_convention (f : FilePart) (p : Pipeline) (out : ProcOutput)
    (hty : f.type ∈ allowedTypes) (hp : p f = Except.ok out) :
    (∃ j : SuccessJson,
        POST (Except.ok (some f)) p = ⟨200, Body.ok j⟩
        ∧ j.filename = firstDotSegment f.name ++ "_cmyk.tiff")
    ∧ firstDotSegment "photo.jpg" ++ "_cmyk.tiff" = "photo_cmyk.tiff"
    ∧ firstDotSegment "archive.tar.png" ++ "_cmyk.tiff" = "archive_cmyk.tiff"
    ∧ firstDotSegment "nodotname" ++ "_cmyk.tiff" = "nodotname_cmyk.tiff"
    ∧ firstDotSegment ".config" ++ "_cmyk.tiff" = "_cmyk.tiff" := by
  refine ⟨⟨{ success := true
             previewUrl := "data:image/jpeg;base64," ++ base64Encode out.previewBytes
             downloadData := "data:image/tiff;base64," ++ base64Encode out.tiffBytes
             filename := firstDotSegment f.name ++ "_cmyk.tiff"
             width := out.width
             height := out.height
             format := "TIFF (CMYK)"
             size := out.tiffBytes.length }, ?_, rfl⟩, by decide, by decide, by decide, by decide⟩
  simp [POST, hty, hp]

/-- C3 witness: the concrete sample JPEG named photo.jpg yields the
filename photo_cmyk.tiff. -/
theorem post_filename_convention_witness :
    ∃ j : SuccessJson,
      POST (Except.ok (some sampleJpeg)) okPipeline = ⟨200, Body.ok j⟩
      ∧ j.filename = "photo_cmyk.tiff" := by
  obtain ⟨⟨j, hj, hname⟩, -, -, -, -⟩ :=
    post_filename_convention sampleJpeg okPipeline sampleOut (by decide) rfl
  exact ⟨j, hj, by rw [hname]; decide⟩

/-- C4: on a validated request, any exception of the processing pipeline is
answered with status 500 and the single fixed generic error body, which
carries no success output at all. -/
theorem post_pipeline_failure_returns_500 (f : FilePart) (p : Pipeline)
    (hty : f.type ∈ allowedTypes) (hp : p f = Except.error ()) :
    POST (Except.ok (some f)) p
      = ⟨500, Body.err "Failed to convert image. Please try again."⟩ := by
  simp [POST, hty, hp, failMsg]

/-- C4 witness: the sample JPEG with the failing pipeline. -/
theorem post_pipeline_failure_returns_500_witness :
    POST (Except.ok (some sampleJpeg)) failingPipeline
      = ⟨500, Body.err "Failed to convert image. Please try again."⟩ :=
  post_pipeline_failure_returns_500 sampleJpeg failingPipeline (by decide) rfl

/-- C10: when the form data parse itself throws, the catch block answers
status 500 with the generic conversion-failure body and not 400: the
missing-file and content-type validations run only after a successful
parse. -/
theorem post_parse_failure_returns_500 (p : Pipeline) :
    POST (Except.error ()) p
      = ⟨500, Body.err "Failed to convert image. Please try again."⟩
    ∧ (POST (Except.error ()) p).status ≠ 400 := by
  exact ⟨rfl, by simp [POST]⟩

end Route

namespace Page

lemma convertImage_get_ne (id : String) (o : FetchOutcome) (l : List ImageFile)
    (i : Nat) (img0 : ImageFile) (h : l.get? i = some img0) (hid : img0.id ≠ id) :
    (convertImage id o l).get? i = some img0 := by
  unfold convertImage applyOutcome setProcessing
  rw [listGet_map, listGet_map, h]
  simp [hid]

lemma convertImage_get_eq (id : String) (o : FetchOutcome) (l : List ImageFile)
    (i : Nat) (img0 : ImageFile) (h : l.get? i = some img0) (hid : img0.id = id) :
    (convertImage id o l).get? i = some (convertImageStep o img0) := by
  unfold convertImage applyOutcome setProcessing
  rw [listGet_map, listGet_map, h]
  subst hid
  cases img0 with
  | mk id fileName preview status previewUrl downloadData filename metadata error =>
    cases o <;> simp [convertImageStep]

lemma setProcessing_get_eq (id : String) (l : List ImageFile) (i : Nat)
    (img0 : ImageFile) (h : l.get? i = some img0) (hid : img0.id = id) :
    (setProcessing id l).get? i = some { img0 with status := Status.processing } := by
  unfold setProcessing
  rw [listGet_map, h]
  subst hid
  simp

lemma foldl_batchStep_fst (oc : String → FetchOutcome) :
    ∀ (pend : List ImageFile) (p : List Event × List ImageFile),
      (pend.foldl (batchStep oc) p).1
        = p.1 ++ pend.flatMap fun img => [Event.reqStart img.id, Event.reqEnd img.id]
  | [], p => by simp
  | hd :: tl, p => by
    rw [List.foldl_cons, foldl_batchStep_fst oc tl]
    simp [batchStep]

lemma foldl_batchStep_snd (oc : String → FetchOutcome) :
    ∀ (pend : List ImageFile) (p : List Event × List ImageFile),
      (pend.foldl (batchStep oc) p).2
        = pend.foldl (fun st img => convertImage img.id (oc img.id) st) p.2
  | [], _ => rfl
  | hd :: tl, p => by
    rw [List.foldl_cons, List.foldl_cons, foldl_batchStep_snd oc tl]
    rfl

lemma reqStartIds_append (s t : List Event) :
    reqStartIds (s ++ t) = reqStartIds s ++ reqStartIds t := by
  induction s with
  | nil => rfl
  | cons e r ih => cases e <;> simp [reqStartIds, ih]

lemma reqStartIds_bindPairs :
    ∀ (pend : List ImageFile),
      reqStartIds (pend.flatMap fun img => [Event.reqStart img.id, Event.reqEnd img.id])
        = pend.map fun img => img.id
  | [] => rfl
  | hd :: tl => congrArg (fun x => hd.id :: x) (reqStartIds_bindPairs tl)

lemma serialFrom_bindPairs :
    ∀ (pend : List ImageFile) (t : List Event),
      serialFrom 0
        ((pend.flatMap fun img => [Event.reqStart img.id, Event.reqEnd img.id]) ++ t)
        = serialFrom 0 t
  | [], _ => rfl
  | _ :: tl, t => serialFrom_bindPairs tl t

lemma convertAllImages_trace (oc : String → FetchOutcome) (l : List ImageFile) :
    (convertAllImages oc l).1
      = Event.procFlag true
          :: (((pendingOf l).flatMap fun img => [Event.reqStart img.id, Event.reqEnd img.id])
              ++ [Event.procFlag false]) := by
  unfold convertAllImages
  simp [foldl_batchStep_fst]

lemma convertAllImages_state (oc : String → FetchOutcome) (l : List ImageFile) :
    (convertAllImages oc l).2
      = (pendingOf l).foldl (fun st img => convertImage img.id (oc img.id) st) l := by
  unfold convertAllImages
  simp [foldl_batchStep_snd]

lemma foldl_convert_frame (oc : String → FetchOutcome) :
    ∀ (pend : List ImageFile) (s : List ImageFile) (i : Nat) (img0 : ImageFile),
      s.get? i = some img0 → (∀ y ∈ pend, y.id ≠ img0.id) →
      (pend.foldl (fun st img => convertImage img.id (oc img.id) st) s).get? i
        = some img0
  | [], _, _, _, h, _ => h
  | hd :: tl, s, i, img0, h, hall => by
    rw [List.foldl_cons]
    exact foldl_convert_frame oc tl _ i img0
      (convertImage_get_ne hd.id (oc hd.id) s i img0 h
        (fun he => hall hd (List.mem_cons_self hd tl) he.symm))
      (fun y hy => hall y (List.mem_cons_of_mem hd hy))

end Page

namespace Page

/-- C5: invoked on a list with N pending items, convertAllImages sets the
processing flag, then issues exactly one request per pending item in list
order, each request completing before the next starts so that no two are
ever outstanding together, and clears the flag only after the last
response: the trace is exactly the flag set, the N start and end pairs in
order, and the flag clear. -/
theorem convertAllImages_serial_trace (oc : String → FetchOutcome) (l : List ImageFile) :
    (convertAllImages oc l).1
      = Event.procFlag true
          :: (((pendingOf l).flatMap fun img => [Event.reqStart img.id, Event.reqEnd img.id])
              ++ [Event.procFlag false])
    ∧ reqStartIds (convertAllImages oc l).1 = ((pendingOf l).map fun img => img.id)
    ∧ (reqStartIds (convertAllImages oc l).1).length = (pendingOf l).length
    ∧ serialFrom 0 (convertAllImages oc l).1 = true := by
  have htr := convertAllImages_trace oc l
  have hids : reqStartIds (convertAllImages oc l).1 = ((pendingOf l).map fun img => img.id) := by
    rw [htr]
    show reqStartIds (((pendingOf l).flatMap fun img =>
      [Event.reqStart img.id, Event.reqEnd img.id]) ++ [Event.procFlag false]) = _
    rw [reqStartIds_append, reqStartIds_bindPairs,
      show reqStartIds [Event.procFlag false] = [] from rfl, List.append_nil]
  refine ⟨htr, hids, ?_, ?_⟩
  · rw [hids, List.length_map]
  · rw [htr]
    show serialFrom 0 (((pendingOf l).flatMap fun img =>
      [Event.reqStart img.id, Event.reqEnd img.id]) ++ [Event.procFlag false]) = true
    rw [serialFrom_bindPairs]
    rfl

/-- C6 counterexample: while a batch conversion is in progress the global
processing flag is true and the Clear All control is disabled, so clearing
the list cannot be performed at that time, contrary to the claim that it
can be performed at any time including mid-batch. -/
theorem clearAll_mid_batch_counterexample :
    clearAllButtonDisabled true = true ∧ ¬ clearAllButtonDisabled true = false := by
  decide

/-- C6 amended: clearing the list is available exactly while no batch
conversion is in progress; when performed it releases every item preview
object URL, empties the visible item list, and no further status update is
applied to the cleared items. -/
theorem clearImages_amended (l : List ImageFile) :
    (∀ b, clearAllButtonDisabled b = false ↔ b = false)
    ∧ (clearImages l).1 = (l.map fun img => img.preview)
    ∧ (clearImages l).2 = []
    ∧ ∀ (id : String) (o : FetchOutcome), convertImage id o (clearImages l).2 = [] := by
  refine ⟨?_, rfl, rfl, fun _ _ => rfl⟩
  intro b
  cases b <;> simp [clearAllButtonDisabled]

/-- C7: the per-item convert control is enabled exactly on pending or error
status; a click on a processing or completed item fires nothing, a click on
a pending or error item issues the request and runs convertImage, whose
first update moves the item to processing; and with unique item ids a
completed item is left untouched, result fields included, by any batch
run. -/
theorem retrigger_policy :
    (∀ s, convertButtonDisabled s = false ↔ s = Status.pending ∨ s = Status.error)
    ∧ (∀ (img : ImageFile) (o : FetchOutcome) (l : List ImageFile),
        img.status = Status.processing ∨ img.status = Status.completed →
        clickConvert img o l = ([], l))
    ∧ (∀ (img : ImageFile) (o : FetchOutcome) (l : List ImageFile),
        img.status = Status.pending ∨ img.status = Status.error →
        (clickConvert img o l).1 = [Event.reqStart img.id, Event.reqEnd img.id]
        ∧ (clickConvert img o l).2 = convertImage img.id o l)
    ∧ (∀ (id : String) (l : List ImageFile) (i : Nat) (img0 : ImageFile),
        l.get? i = some img0 → img0.id = id →
        (setProcessing id l).get? i = some { img0 with status := Status.processing })
    ∧ (∀ (oc : String → FetchOutcome) (l : List ImageFile) (i : Nat) (img0 : ImageFile),
        (l.map fun img => img.id).Nodup → l.get? i = some img0 →
        img0.status = Status.completed →
        ((convertAllImages oc l).2).get? i = some img0) := by
  refine ⟨?_, ?_, ?_, ?_, ?_⟩
  · intro s
    cases s <;> simp [convertButtonDisabled]
  · intro img o l h
    have hd : convertButtonDisabled img.status = true := by
      rcases h with h | h <;> rw [h] <;> rfl
    unfold clickConvert
    rw [hd]
    rfl
  · intro img o l h
    have hd : convertButtonDisabled img.status = false := by
      rcases h with h | h <;> rw [h] <;> rfl
    unfold clickConvert
    rw [hd]
    exact ⟨rfl, rfl⟩
  · exact fun id l i img0 h hid => setProcessing_get_eq id l i img0 h hid
  · intro oc l i img0 hnd h hst
    have hmem : img0 ∈ l := listGet_mem l i img0 h
    have hnotin : ∀ y ∈ pendingOf l, y.id ≠ img0.id := by
      intro y hy he
      have hy' : y ∈ l.filter (fun img => img.status == Status.pending) := hy
      have hy_l : y ∈ l := (List.mem_filter.mp hy').1
      have hy_pend : (y.status == Status.pending) = true := (List.mem_filter.mp hy').2
      have hy_eq : y = img0 := List.inj_on_of_nodup_map hnd hy_l hmem he
      rw [hy_eq, hst] at hy_pend
      exact absurd hy_pend (by decide)
    rw [convertAllImages_state]
    exact foldl_convert_frame oc (pendingOf l) l i img0 h hnotin

/-- C7 witness: a click on the concrete completed item fires nothing and a
batch run over the one-item list leaves it untouched. -/
theorem retrigger_policy_witness :
    clickConvert itemDone (FetchOutcome.failure "x") [itemDone] = ([], [itemDone])
    ∧ ((convertAllImages (fun _ => FetchOutcome.failure "x") [itemDone]).2).get? 0
        = some itemDone
    ∧ (clickConvert itemPending (FetchOutcome.failure "x") [itemPending]).1
        = [Event.reqStart "p1", Event.reqEnd "p1"] := by
  refine ⟨?_, ?_, ?_⟩
  · exact retrigger_policy.2.1 itemDone (FetchOutcome.failure "x") [itemDone] (Or.inr rfl)
  · exact retrigger_policy.2.2.2.2 (fun _ => FetchOutcome.failure "x") [itemDone] 0
      itemDone (by decide) (by decide) rfl
  · exact (retrigger_policy.2.2.1 itemPending (FetchOutcome.failure "x") [itemPending]
      (Or.inl rfl)).1

/-- C8: a failed conversion never halts a batch: convertImage maps a
failure outcome to an error status with the message on the matching item
(the catch block makes it a total state update, no exception escapes), and
the request trace of convertAllImages is the same whatever the outcomes
are, covering every pending item. -/
theorem batch_proceeds_on_failure (id m : String) (l : List ImageFile)
    (oc oc₂ : String → FetchOutcome) :
    (∀ (i : Nat) (img0 : ImageFile), l.get? i = some img0 → img0.id = id →
        (convertImage id (FetchOutcome.failure m) l).get? i
          = some { img0 with status := Status.error, error := some m })
    ∧ (convertAllImages oc l).1 = (convertAllImages oc₂ l).1
    ∧ reqStartIds (convertAllImages oc l).1 = ((pendingOf l).map fun img => img.id) := by
  refine ⟨?_, ?_, ?_⟩
  · intro i img0 h hid
    have he := convertImage_get_eq id (FetchOutcome.failure m) l i img0 h hid
    rw [he]
    rfl
  · rw [convertAllImages_trace, convertAllImages_trace]
  · rw [convertAllImages_trace]
    show reqStartIds (((pendingOf l).flatMap fun img =>
      [Event.reqStart img.id, Event.reqEnd img.id]) ++ [Event.procFlag false]) = _
    rw [reqStartIds_append, reqStartIds_bindPairs,
      show reqStartIds [Event.procFlag false] = [] from rfl, List.append_nil]

/-- C8 witness: a failing request on the concrete pending item records the
error status and message on it. -/
theorem batch_proceeds_on_failure_witness :
    (convertImage "p1" (FetchOutcome.failure "boom") [itemPending, itemDone]).get? 0
      = some { itemPending with status := Status.error, error := some "boom" } :=
  (batch_proceeds_on_failure "p1" "boom" [itemPending, itemDone]
    (fun _ => FetchOutcome.failure "boom") (fun _ => FetchOutcome.failure "boom")).1
    0 itemPending (by decide) rfl

/-- C9: every state update of convertImage, the transition to processing
and the application of the outcome alike, modifies only list entries whose
id matches the converted item; every entry with another id is returned
unchanged at its position, so one conversion attempt never touches another
item. -/
theorem convertImage_frame (id : String) (o : FetchOutcome) :
    framedAt (setProcessing id) id
    ∧ framedAt (applyOutcome id o) id
    ∧ framedAt (convertImage id o) id := by
  refine ⟨?_, ?_, ?_⟩ <;> intro l i img0 h hid
  · unfold setProcessing
    rw [listGet_map, h]
    simp [hid]
  · unfold applyOutcome
    rw [listGet_map, h]
    simp [hid]
  · exact convertImage_get_ne id o l i img0 h hid

/-- C9 witness: converting the pending item leaves the completed item at
position one unchanged. -/
theorem convertImage_frame_witness :
    (convertImage "p1" (FetchOutcome.failure "boom") [itemPending, itemDone]).get? 1
      = some itemDone :=
  (convertImage_frame "p1" (FetchOutcome.failure "boom")).2.2
    [itemPending, itemDone] 1 itemDone (by decide) (by decide)

end Page
